import Mathlib

/-!
Verification of the `granite` translator (Rust source to Petri net) against its
natural-language specification.  The Rust source under `src/` is shallowly
embedded below: each Rust function that the claims mention becomes a Lean
definition with the same name (camel-cased), machine integers become `Nat`,
fallible code (Rust `panic!` / `expect`) becomes `Option`, and the mutable
state threaded through the translator becomes explicit state passing.
-/

namespace Granite

/-- A MIR place (`rustc_middle::mir::Place`): a local variable together with a
projection (we only need the field-index part of projections, since the code
under verification compares `place.local` and full place equality). -/
structure MirPlace where
  localIdx : Nat
  projection : List Nat
  deriving DecidableEq

/-- Association-list lookup: the value stored for the first matching key.
Models `HashMap::get` (keys are unique in a `HashMap`, and the `link` operation
below preserves key uniqueness). -/
def alGet {α : Type} : List (MirPlace × α) → MirPlace → Option α
  | [], _ => none
  | (k, v) :: rest, p => if p = k then some v else alGet rest p

/-- Association-list insert-or-replace: models `HashMap::insert`, which
overwrites the value of an existing key and otherwise adds the entry. -/
def alInsert {α : Type} : List (MirPlace × α) → MirPlace → α → List (MirPlace × α)
  | [], p, v => [(p, v)]
  | (k, w) :: rest, p, v => if p = k then (k, v) :: rest else (k, w) :: alInsert rest p v

/-- Embeds `MutexRef`: wrapper around the index into the `MutexManager`'s vector of
mutexes (`src/src/translator/sync/mutex_manager.rs`). -/
abbrev MutexRef := Nat

/-- Embeds `ThreadRef`: wrapper around the index into the `ThreadManager`'s deque of
threads (`src/src/translator/sync/thread_manager.rs`). -/
abbrev ThreadRef := Nat

/-- The local memory of a function
(`Memory` in `src/src/translator/mir_function/memory.rs`): one map per handle
kind from places to handle references.  The entry list order models the
iteration order of the underlying `HashMap`, which Rust leaves unspecified. -/
structure Memory where
  placesLinkedToMutexes : List (MirPlace × MutexRef)
  placesLinkedToLockGuards : List (MirPlace × MutexRef)
  placesLinkedToJoinHandles : List (MirPlace × ThreadRef)
  deriving DecidableEq

/-- Embeds `Memory::new`: empty mappings. -/
def Memory.new : Memory := ⟨[], [], []⟩

/-- Embeds `Memory::link_place_to_mutex`: inserts the mapping; an existing entry for
the place is overwritten (the Rust code only emits a `debug!` diagnostic in
that case and in the identical-handle case; it never panics). -/
def Memory.linkPlaceToMutex (m : Memory) (place : MirPlace) (mutexRef : MutexRef) : Memory :=
  { m with placesLinkedToMutexes := alInsert m.placesLinkedToMutexes place mutexRef }

/-- Embeds `Memory::link_place_to_lock_guard`. -/
def Memory.linkPlaceToLockGuard (m : Memory) (place : MirPlace) (mutexRef : MutexRef) : Memory :=
  { m with placesLinkedToLockGuards := alInsert m.placesLinkedToLockGuards place mutexRef }

/-- Embeds `Memory::link_place_to_join_handle`. -/
def Memory.linkPlaceToJoinHandle (m : Memory) (place : MirPlace) (threadRef : ThreadRef) : Memory :=
  { m with placesLinkedToJoinHandles := alInsert m.placesLinkedToJoinHandles place threadRef }

/-- Embeds `Memory::get_linked_mutex`: `none` models the `panic!` taken when the
place is not linked to a mutex. -/
def Memory.getLinkedMutex (m : Memory) (place : MirPlace) : Option MutexRef :=
  alGet m.placesLinkedToMutexes place

/-- Embeds `Memory::get_linked_join_handle`: `none` models the `panic!` taken when
the place is not linked to a join handle. -/
def Memory.getLinkedJoinHandle (m : Memory) (place : MirPlace) : Option ThreadRef :=
  alGet m.placesLinkedToJoinHandles place

/-- The places currently linked to a mutex (the key set of the mutex map). -/
def Memory.mutexKeys (m : Memory) : List MirPlace :=
  m.placesLinkedToMutexes.map Prod.fst

/-- The places currently linked to a join handle. -/
def Memory.joinHandleKeys (m : Memory) : List MirPlace :=
  m.placesLinkedToJoinHandles.map Prod.fst

/-- Embeds `Memory::find_mutexes_linked_to_place`: iterates over the keys of the
mutex map and collects the mutex reference of every place sharing the given
place's `local`.  The iteration order of the Rust `HashMap` is the entry-list
order of the embedding. -/
def Memory.findMutexesLinkedToPlace (m : Memory) (place : MirPlace) : List MutexRef :=
  m.placesLinkedToMutexes.filterMap
    (fun e => if e.fst.localIdx = place.localIdx then some e.snd else none)

/-- Lookup in a string-keyed association list (used for the net marking). -/
def alGetS {α : Type} : List (String × α) → String → Option α
  | [], _ => none
  | (k, v) :: rest, p => if p = k then some v else alGetS rest p

/-- Modelled from the spec: the Net Model component (`netcrab::petri_net`,
referenced through the repository's `petri_net_interface` module, neither of
which is under `src/`).  Per section 3 and 4.1 of the spec, a net owns places,
transitions and weighted arcs between them, plus an initial marking; the
construction is monotonic and forward-only.  All arcs created by the code
under verification have weight 1, so the arc lists carry no weight field. -/
structure PetriNet where
  places : List String
  transitions : List String
  arcsPT : List (String × String)
  arcsTP : List (String × String)
  marking : List (String × Nat)
  deriving DecidableEq

/-- Modelled from the spec: the empty net (`PetriNet::new` and the
`Default` instance used by `std::mem::take` in `Translator::get_result`). -/
def PetriNet.empty : PetriNet := ⟨[], [], [], [], []⟩

/-- Modelled from the spec: `add_place(label)`; inserting a duplicate label is
a fatal internal error, embedded as `none`. -/
def PetriNet.addPlace (net : PetriNet) (label : String) : Option PetriNet :=
  if label ∈ net.places then none
  else some { net with places := net.places ++ [label] }

/-- Modelled from the spec: `add_transition(label)`; duplicate labels are
fatal, embedded as `none`. -/
def PetriNet.addTransition (net : PetriNet) (label : String) : Option PetriNet :=
  if label ∈ net.transitions then none
  else some { net with transitions := net.transitions ++ [label] }

/-- Modelled from the spec: `add_arc` from a place to a transition; an arc
referencing an element the net does not own is fatal, embedded as `none`
(the repository wraps this in `add_arc_place_transition`, whose error handler
aborts). -/
def PetriNet.addArcPlaceTransition (net : PetriNet) (p t : String) : Option PetriNet :=
  if p ∈ net.places ∧ t ∈ net.transitions then
    some { net with arcsPT := net.arcsPT ++ [(p, t)] }
  else none

/-- Modelled from the spec: `add_arc` from a transition to a place
(`add_arc_transition_place` in the repository's net interface). -/
def PetriNet.addArcTransitionPlace (net : PetriNet) (t p : String) : Option PetriNet :=
  if p ∈ net.places ∧ t ∈ net.transitions then
    some { net with arcsTP := net.arcsTP ++ [(t, p)] }
  else none

/-- Modelled from the spec: `add_token(place, n)`; the place must exist. -/
def PetriNet.addToken (net : PetriNet) (p : String) (n : Nat) : Option PetriNet :=
  if p ∈ net.places then
    some { net with marking := (p, (alGetS net.marking p).getD 0 + n) ::
      net.marking.filter (fun e => e.fst ≠ p) }
  else none

/-- The number of tokens a place holds in the net's marking. -/
def PetriNet.tokens (net : PetriNet) (p : String) : Nat :=
  (alGetS net.marking p).getD 0

/-- The outgoing arcs of a place: all place-to-transition arcs whose source is
the given place. -/
def PetriNet.outgoingArcs (net : PetriNet) (p : String) : List (String × String) :=
  net.arcsPT.filter (fun a => a.fst = p)

/-- Embeds `start_place_label` from `src/src/naming/thread.rs`: label of the place
that models the thread start state. -/
def startPlaceLabel (index : Nat) : String := "THREAD_START_" ++ toString index

/-- Embeds `end_place_label` from `src/src/naming/thread.rs`: label of the place that
models the thread end state. -/
def endPlaceLabel (index : Nat) : String := "THREAD_END_" ++ toString index

/-- A thread to be translated later
(`Thread` in `src/src/translator/sync/thread.rs`): the spawn transition, the
spawned function, the mutexes passed to the thread, the join transition (set
later, if ever) and the thread's index. -/
structure Thread where
  spawnTransition : String
  threadFunctionDefId : Nat
  mutexes : List MutexRef
  joinTransition : Option String
  index : Nat
  deriving DecidableEq

/-- Embeds `Thread::new`: creates a thread without a join transition. -/
def Thread.new (spawnTransition : String) (threadFunctionDefId : Nat)
    (mutexes : List MutexRef) (index : Nat) : Thread :=
  ⟨spawnTransition, threadFunctionDefId, mutexes, none, index⟩

/-- Embeds `Thread::set_join_transition`. -/
def Thread.setJoinTransition (t : Thread) (joinTransition : String) : Thread :=
  { t with joinTransition := some joinTransition }

/-- Embeds `Thread::prepare_for_translation`: adds a start and an end place for the
thread, connects the spawn transition to the start place and, when a join
transition was recorded, the end place to it.  Returns the function to be
translated together with the two places.  `none` models the abort taken when
a net operation fails. -/
def Thread.prepareForTranslation (t : Thread) (net : PetriNet) :
    Option (PetriNet × Nat × String × String) := do
  let net1 ← net.addPlace (startPlaceLabel t.index)
  let net2 ← net1.addPlace (endPlaceLabel t.index)
  let net3 ← net2.addArcTransitionPlace t.spawnTransition (startPlaceLabel t.index)
  let net4 ← match t.joinTransition with
    | some j => net3.addArcPlaceTransition (endPlaceLabel t.index) j
    | none => pure net3
  return (net4, t.threadFunctionDefId, startPlaceLabel t.index, endPlaceLabel t.index)

/-- Embeds `Thread::move_mutexes`: walks the spawned function's debug info entries
(a place together with the result of the `check_substring_in_place_type`
test for the mutex type) and, for every entry rooted at local `_1` that has
mutex type, pops a mutex from the back of the thread's mutex list and links
the place to it in the new function's memory.  `none` models the `expect`
panic when the list runs out. -/
def moveMutexesLoop : List (MirPlace × Bool) → List MutexRef → Memory →
    Option (List MutexRef × Memory)
  | [], muts, mem => some (muts, mem)
  | (place, isMutexType) :: rest, muts, mem =>
    if place.localIdx = 1 ∧ isMutexType then
      match muts.getLast? with
      | none => none
      | some m => moveMutexesLoop rest muts.dropLast (mem.linkPlaceToMutex place m)
    else moveMutexesLoop rest muts mem

/-- Embeds `Thread::move_mutexes` on a thread value: threads the thread's own mutex
list through `moveMutexesLoop`. -/
def Thread.moveMutexes (t : Thread) (varDebugInfo : List (MirPlace × Bool))
    (mem : Memory) : Option (Thread × Memory) := do
  let (muts, mem1) ← moveMutexesLoop varDebugInfo t.mutexes mem
  return ({ t with mutexes := muts }, mem1)

/-- Embeds `ThreadManager` (`src/src/translator/sync/thread_manager.rs`): the deque
of threads, front of the deque first. -/
structure ThreadManager where
  threads : List Thread
  deriving DecidableEq

/-- Embeds `ThreadManager::new`. -/
def ThreadManager.new : ThreadManager := ⟨[]⟩

/-- Embeds `ThreadManager::add_thread`: takes `index = self.threads.len()`, pushes
the new thread at the FRONT of the deque (`push_front`) and returns
`ThreadRef(index)`. -/
def ThreadManager.addThread (tm : ThreadManager) (spawnTransition : String)
    (threadFunctionDefId : Nat) (mutexes : List MutexRef) : ThreadManager × ThreadRef :=
  let index := tm.threads.length
  (⟨Thread.new spawnTransition threadFunctionDefId mutexes index :: tm.threads⟩, index)

/-- Embeds `ThreadManager::set_join_transition`: indexes the deque with the
`ThreadRef` (`get_mut`) and sets that thread's join transition; `none` models
the `expect` panic on an out-of-range reference. -/
def ThreadManager.setJoinTransition (tm : ThreadManager) (threadRef : ThreadRef)
    (joinTransition : String) : Option ThreadManager :=
  match tm.threads.get? threadRef with
  | none => none
  | some t => some ⟨tm.threads.set threadRef (t.setJoinTransition joinTransition)⟩

/-- Embeds `ThreadManager::pop_thread`: `pop_front` on the deque. -/
def ThreadManager.popThread (tm : ThreadManager) : Option (Thread × ThreadManager) :=
  match tm.threads with
  | [] => none
  | t :: rest => some (t, ⟨rest⟩)

/-- Embeds `ThreadManager::translate_side_effects_spawn`: finds the mutexes linked to
the closure argument's place in the caller's memory, adds a new thread holding
them, and links the return place to the new join handle.  The caller's memory
is otherwise unmodified. -/
def ThreadManager.translateSideEffectsSpawn (tm : ThreadManager)
    (closureForSpawn returnValue : MirPlace) (transitionFunctionCall : String)
    (threadFunctionDefId : Nat) (memory : Memory) : ThreadManager × Memory :=
  let mutexes := memory.findMutexesLinkedToPlace closureForSpawn
  let (tm1, threadRef) := tm.addThread transitionFunctionCall threadFunctionDefId mutexes
  (tm1, memory.linkPlaceToJoinHandle returnValue threadRef)

/-- Embeds `ThreadManager::translate_side_effects_join`: retrieves the join handle
linked to the first argument's place and records the join transition on the
thread the reference indexes.  `none` models the panics of
`get_linked_join_handle` and `set_join_transition`. -/
def ThreadManager.translateSideEffectsJoin (tm : ThreadManager) (selfRef : MirPlace)
    (transitionFunctionCall : String) (memory : Memory) : Option ThreadManager := do
  let threadRef ← memory.getLinkedJoinHandle selfRef
  tm.setJoinTransition threadRef transitionFunctionCall

/-- Modelled from the spec: label of a mutex's unlocked place.  The naming
submodule for mutexes is not under `src/`; per section 3 of the spec a mutex
instance owns two net places modeling its unlocked/locked state, with labels
unique per instance index. -/
def mutexUnlockedLabel (index : Nat) : String := "MUTEX_" ++ toString index ++ "_UNLOCKED"

/-- Modelled from the spec: label of a mutex's locked place. -/
def mutexLockedLabel (index : Nat) : String := "MUTEX_" ++ toString index ++ "_LOCKED"

/-- Modelled from the spec: a mutex instance (`Mutex` in the repository's
`sync/mutex.rs`, which is not under `src/`): an index plus the two net places
modeling the unlocked/locked state, created once per construction call. -/
structure Mutex where
  index : Nat
  unlockedPlace : String
  lockedPlace : String
  deriving DecidableEq

/-- Modelled from the spec: `Mutex::new` creates the instance's unlocked and
locked places in the net. -/
def Mutex.newInNet (index : Nat) (net : PetriNet) : Option (Mutex × PetriNet) := do
  let net1 ← net.addPlace (mutexUnlockedLabel index)
  let net2 ← net1.addPlace (mutexLockedLabel index)
  return (⟨index, mutexUnlockedLabel index, mutexLockedLabel index⟩, net2)

/-- Modelled from the spec: `Mutex::add_lock_guard` connects the mutex's
unlocked place to the lock transition, so the transition only fires when the
mutex is unlocked (section 4.4: the lock transition additionally consumes one
token from the mutex's unlocked place). -/
def Mutex.addLockGuard (m : Mutex) (transitionLock : String) (net : PetriNet) :
    Option PetriNet :=
  net.addArcPlaceTransition m.unlockedPlace transitionLock

/-- Embeds `MutexManager` (`src/src/translator/sync/mutex_manager.rs`): the vector of
mutexes and the lock counter. -/
structure MutexManager where
  mutexes : List Mutex
  lockCounter : Nat
  deriving DecidableEq

/-- Embeds `MutexManager::new`. -/
def MutexManager.new : MutexManager := ⟨[], 0⟩

/-- Embeds `MutexManager::add_mutex`: `index = self.mutexes.len()`, push at the back
of the vector, return `MutexRef(index)`. -/
def MutexManager.addMutex (mm : MutexManager) (net : PetriNet) :
    Option (MutexManager × PetriNet × MutexRef) := do
  let index := mm.mutexes.length
  let (m, net1) ← Mutex.newInNet index net
  return ({ mm with mutexes := mm.mutexes ++ [m] }, net1, index)

/-- Embeds `MutexManager::add_lock_guard`: indexes the mutex vector with the
`MutexRef` and connects that mutex's unlocked place to the lock transition;
`none` models the `expect` panic on an invalid reference.  The lock counter is
incremented. -/
def MutexManager.addLockGuard (mm : MutexManager) (mutexRef : MutexRef)
    (transitionLock : String) (net : PetriNet) : Option (MutexManager × PetriNet) := do
  let m ← mm.mutexes.get? mutexRef
  let net1 ← m.addLockGuard transitionLock net
  return ({ mm with lockCounter := mm.lockCounter + 1 }, net1)

/-- The mutex-new side effects followed by the mutex-lock side effects on the
handle returned by the new (`MutexManager::translate_function_side_effects`
in `src/src/translator/sync/mutex_manager.rs`, dispatched from
`Translator::call_mutex_new` and `Translator::call_mutex_lock`): the new call
allocates the mutex and links the return place to the fresh handle; the lock
call resolves the handle stored for the locked object's place and adds the
lock guard arc for the lock call's transition. -/
def mutexNewThenLock (mm : MutexManager) (net : PetriNet) (memory : Memory)
    (returnValueNew selfRefLock : MirPlace) (transitionLock : String) :
    Option (MutexManager × PetriNet × Memory) := do
  let (mm1, net1, mutexRef) ← mm.addMutex net
  let memory1 := memory.linkPlaceToMutex returnValueNew mutexRef
  let lockedRef ← memory1.getLinkedMutex selfRefLock
  let (mm2, net2) ← mm1.addLockGuard lockedRef transitionLock net1
  return (mm2, net2, memory1)

/-- Modelled from the spec: labels of the three fixed program places
(`PROGRAM_PANIC`, `PROGRAM_END`, `PROGRAM_START` constants of the
`naming::program` submodule, which is not under `src/`). -/
def PROGRAM_PANIC : String := "PROGRAM_PANIC"

/-- Modelled from the spec: label of the program end place. -/
def PROGRAM_END : String := "PROGRAM_END"

/-- Modelled from the spec: label of the program start place. -/
def PROGRAM_START : String := "PROGRAM_START"

/-- The net built by `Translator::new` (`src/src/translator.rs`): an empty
net, then the panic, end and start places in that order, then one token on
the start place. -/
def translatorNewNet : Option PetriNet := do
  let net1 ← PetriNet.empty.addPlace PROGRAM_PANIC
  let net2 ← net1.addPlace PROGRAM_END
  let net3 ← net2.addPlace PROGRAM_START
  net3.addToken PROGRAM_START 1

/-- Modelled from the spec: the recoverable-error message used when no
program entry point resolves (`ERR_NO_MAIN_FUNCTION_FOUND` in the
repository's `error_handling` module, which is not under `src/`). -/
def ERR_NO_MAIN_FUNCTION_FOUND : String := "ERR_NO_MAIN_FUNCTION_FOUND"

/-- The `Translator` state relevant to `run` and `get_result`
(`src/src/translator.rs`): the recoverable-error slot and the net.  The call
stack and the managers are part of the net-building work abstracted below. -/
structure TranslatorState where
  errStr : Option String
  net : PetriNet
  deriving DecidableEq

/-- Embeds `Translator::run`: when the entry point does not resolve, records the
recoverable error message and returns; otherwise pushes the entry function
and translates to completion.  The entire translation
(`push_function_to_call_stack`, `translate_top_call_stack`,
`translate_threads`) is abstracted as a function `translate` on the net: in
the source none of these functions assigns `err_str` (the only assignment to
`err_str` in the repository is the one in `run`). -/
def TranslatorState.run (s : TranslatorState) (entryFn : Option Nat)
    (translate : Nat → PetriNet → PetriNet) : TranslatorState :=
  match entryFn with
  | none => { s with errStr := some ERR_NO_MAIN_FUNCTION_FOUND }
  | some mainFunctionId => { s with net := translate mainFunctionId s.net }

/-- Embeds `Translator::get_result`: returns the recorded error if any; otherwise
returns the net, replacing it in the translator by a fresh default net
(`std::mem::take`). -/
def TranslatorState.getResult (s : TranslatorState) :
    Except String PetriNet × TranslatorState :=
  match s.errStr with
  | some errStr => (Except.error errStr, s)
  | none => (Except.ok s.net, { s with net := PetriNet.empty })

/-- Helper: looking up the key just inserted returns the inserted value. -/
theorem alGet_alInsert_self {α : Type} (l : List (MirPlace × α)) (p : MirPlace) (v : α) :
    alGet (alInsert l p v) p = some v := by
  induction l with
  | nil => simp [alInsert, alGet]
  | cons kv rest ih =>
    obtain ⟨k, w⟩ := kv
    by_cases h : p = k
    · simp [alInsert, alGet, h]
    · simp [alInsert, alGet, h, ih]

/-- Helper: inserting one key leaves the other keys' values unchanged. -/
theorem alGet_alInsert_ne {α : Type} (l : List (MirPlace × α)) (p q : MirPlace) (v : α)
    (hq : q ≠ p) : alGet (alInsert l p v) q = alGet l q := by
  induction l with
  | nil => simp [alInsert, alGet, hq]
  | cons kv rest ih =>
    obtain ⟨k, w⟩ := kv
    by_cases h : p = k
    · subst h
      simp [alInsert, alGet, hq]
    · by_cases h2 : q = k
      · simp [alInsert, alGet, h, h2]
      · simp [alInsert, alGet, h, h2, ih]

/-- Helper: re-inserting the value a key already holds is the identity. -/
theorem alInsert_same {α : Type} (l : List (MirPlace × α)) (p : MirPlace) (v : α)
    (h : alGet l p = some v) : alInsert l p v = l := by
  induction l with
  | nil => simp [alGet] at h
  | cons kv rest ih =>
    obtain ⟨k, w⟩ := kv
    by_cases hk : p = k
    · simp [alGet, hk] at h
      simp [alInsert, hk, h]
    · simp [alGet, hk] at h
      simp [alInsert, hk, ih h]

/-- Helper: lookup fails exactly on keys absent from the list. -/
theorem alGet_eq_none_iff {α : Type} (l : List (MirPlace × α)) (p : MirPlace) :
    alGet l p = none ↔ p ∉ l.map Prod.fst := by
  induction l with
  | nil => simp [alGet]
  | cons kv rest ih =>
    obtain ⟨k, w⟩ := kv
    by_cases h : p = k
    · simp [alGet, h]
    · simp [alGet, h, ih]

/-- Helper: a thread's start and end place labels never collide (their
lengths differ). -/
theorem startPlaceLabel_ne_endPlaceLabel (i : Nat) : startPlaceLabel i ≠ endPlaceLabel i := by
  intro h
  have h2 := congrArg String.length h
  simp [startPlaceLabel, endPlaceLabel, String.length_append] at h2
  exact absurd h2 (by decide)

/-- Helper: a mutex's unlocked and locked place labels never collide. -/
theorem mutexUnlockedLabel_ne_mutexLockedLabel (i : Nat) :
    mutexUnlockedLabel i ≠ mutexLockedLabel i := by
  intro h
  have h2 := congrArg String.length h
  simp [mutexUnlockedLabel, mutexLockedLabel, String.length_append] at h2
  exact absurd h2 (by decide)

/-- Helper: indexing a snoc list at the old length yields the new element. -/
theorem get_concat_length {α : Type} (l : List α) (a : α) :
    (l ++ [a]).get? l.length = some a := by
  induction l with
  | nil => rfl
  | cons x rest ih => simp [ih]

/-- C1: the claim states that `set_join_transition` with the `ThreadRef`
returned by `add_thread` updates the very thread that `add_thread` created,
even when several threads have been spawned in between.  The code violates
this: `add_thread` pushes at the FRONT of the deque but returns the deque's
OLD length as the reference, so earlier references are shifted by later
spawns.  Concretely: spawn thread A (handle linked to place `_2`), spawn
thread B (handle linked to `_3`), then join A's handle; the join transition
`JOIN_A` is recorded on thread B (spawned by `SPAWN_B`) while thread A keeps
no join transition. -/
theorem thread_join_lands_on_wrong_thread :
    (let s1 := ThreadManager.new.translateSideEffectsSpawn ⟨4, []⟩ ⟨2, []⟩ "SPAWN_A" 100
      Memory.new
     let s2 := s1.1.translateSideEffectsSpawn ⟨4, []⟩ ⟨3, []⟩ "SPAWN_B" 200 s1.2
     let j := s2.1.translateSideEffectsJoin ⟨2, []⟩ "JOIN_A" s2.2
     j.map (fun tm => tm.threads.map (fun t => (t.spawnTransition, t.joinTransition))))
    = some [("SPAWN_B", some "JOIN_A"), ("SPAWN_A", none)] := by decide

/-- C2 counterexample: the claim states that after thread-spawn none of the
captured mutex handles is reachable from the spawning frame's memory.  At a
concrete input (one mutex linked to place `_1.0`, spawn argument `_1`) the
handle is captured into the new thread's mutex list AND still retrievable
from the caller's memory afterwards: nothing removes it. -/
theorem spawn_keeps_captured_mutex_reachable :
    (let r := ThreadManager.new.translateSideEffectsSpawn ⟨1, []⟩ ⟨2, []⟩ "SPAWN" 100
        ⟨[(⟨1, [0]⟩, 0)], [], []⟩
     r.1.threads.map Thread.mutexes = [[0]] ∧
     r.2.getLinkedMutex ⟨1, [0]⟩ = some 0) := by decide

/-- C2 (amended): when thread-spawn is translated, the mutex handles captured
by the spawn argument are resolved via `find_mutexes_linked_to_place` on the
caller's memory and copied into the new thread instance, but they are NOT
removed from the caller's memory: the caller's place-to-mutex map is left
completely unchanged by the spawn side effects. -/
theorem spawn_copies_but_does_not_remove_mutexes (tm : ThreadManager)
    (closureForSpawn returnValue : MirPlace) (transitionFunctionCall : String)
    (threadFunctionDefId : Nat) (memory : Memory) :
    (let r := tm.translateSideEffectsSpawn closureForSpawn returnValue transitionFunctionCall
        threadFunctionDefId memory
     r.2.placesLinkedToMutexes = memory.placesLinkedToMutexes ∧
     r.1.threads.head?.map Thread.mutexes =
       some (memory.findMutexesLinkedToPlace closureForSpawn)) :=
  ⟨rfl, rfl⟩

/-- C3: preparing a drained thread instance for translation adds exactly one
fresh start place and one fresh end place, adds an arc from the recorded
spawn transition to the start place, and the end place's outgoing arcs are
exactly one arc into the join transition when a join transition was recorded
and none otherwise. -/
theorem prepare_for_translation_start_end_wiring (t : Thread) (net : PetriNet)
    (hs : startPlaceLabel t.index ∉ net.places)
    (he : endPlaceLabel t.index ∉ net.places)
    (hspawn : t.spawnTransition ∈ net.transitions)
    (hjoin : ∀ j, t.joinTransition = some j → j ∈ net.transitions)
    (hout : net.outgoingArcs (endPlaceLabel t.index) = []) :
    ∃ net4,
      t.prepareForTranslation net =
        some (net4, t.threadFunctionDefId, startPlaceLabel t.index, endPlaceLabel t.index) ∧
      net4.places = net.places ++ [startPlaceLabel t.index, endPlaceLabel t.index] ∧
      (t.spawnTransition, startPlaceLabel t.index) ∈ net4.arcsTP ∧
      net4.outgoingArcs (endPlaceLabel t.index) =
        (match t.joinTransition with
         | some j => [(endPlaceLabel t.index, j)]
         | none => []) := by
  have hne := startPlaceLabel_ne_endPlaceLabel t.index
  have hout2 : net.arcsPT.filter (fun a => a.fst = endPlaceLabel t.index) = [] := hout
  cases hj : t.joinTransition with
  | none =>
    refine ⟨⟨net.places ++ [startPlaceLabel t.index, endPlaceLabel t.index],
      net.transitions, net.arcsPT,
      net.arcsTP ++ [(t.spawnTransition, startPlaceLabel t.index)], net.marking⟩,
      ?_, ?_, ?_, ?_⟩
    · simp [Thread.prepareForTranslation, PetriNet.addPlace, PetriNet.addArcTransitionPlace,
        hs, he, hj, hspawn, Ne.symm hne]
    · rfl
    · simp
    · simp [PetriNet.outgoingArcs, hout2]
  | some j =>
    refine ⟨⟨net.places ++ [startPlaceLabel t.index, endPlaceLabel t.index],
      net.transitions, net.arcsPT ++ [(endPlaceLabel t.index, j)],
      net.arcsTP ++ [(t.spawnTransition, startPlaceLabel t.index)], net.marking⟩,
      ?_, ?_, ?_, ?_⟩
    · simp [Thread.prepareForTranslation, PetriNet.addPlace, PetriNet.addArcTransitionPlace,
        PetriNet.addArcPlaceTransition, hs, he, hj, hspawn, hjoin j hj, Ne.symm hne]
    · rfl
    · simp
    · simp [PetriNet.outgoingArcs, List.filter_append, hout2]

/-- C3 witness: the wiring theorem applied to a joined thread of index 0 over
a net owning the spawn and join transitions. -/
theorem prepare_for_translation_start_end_wiring_witness :
    ∃ net4,
      Thread.prepareForTranslation ⟨"SPAWN", 7, [], some "JOIN", 0⟩
          ⟨[], ["SPAWN", "JOIN"], [], [], []⟩ =
        some (net4, 7, startPlaceLabel 0, endPlaceLabel 0) ∧
      net4.places = [] ++ [startPlaceLabel 0, endPlaceLabel 0] ∧
      ("SPAWN", startPlaceLabel 0) ∈ net4.arcsTP ∧
      net4.outgoingArcs (endPlaceLabel 0) = [(endPlaceLabel 0, "JOIN")] :=
  prepare_for_translation_start_end_wiring ⟨"SPAWN", 7, [], some "JOIN", 0⟩
    ⟨[], ["SPAWN", "JOIN"], [], [], []⟩ (by decide) (by decide) (by decide)
    (by
      intro j hj
      injection hj with h
      subst h
      decide)
    rfl

/-- C4: for every mutex-new followed by a mutex-lock resolving the handle the
new call linked (the handle flows from the new's return place to the lock's
self place), the lock call's transition gains the created mutex's unlocked
place as an input: the arc from the unlocked place to the lock transition is
in the resulting net. -/
theorem mutex_lock_consumes_unlocked_place (mm : MutexManager) (net : PetriNet)
    (memory : Memory) (p : MirPlace) (transitionLock : String)
    (hu : mutexUnlockedLabel mm.mutexes.length ∉ net.places)
    (hl : mutexLockedLabel mm.mutexes.length ∉ net.places)
    (ht : transitionLock ∈ net.transitions) :
    ∃ mm2 net2 memory1,
      mutexNewThenLock mm net memory p p transitionLock = some (mm2, net2, memory1) ∧
      (mutexUnlockedLabel mm.mutexes.length, transitionLock) ∈ net2.arcsPT := by
  have hne := mutexUnlockedLabel_ne_mutexLockedLabel mm.mutexes.length
  refine ⟨⟨mm.mutexes ++ [⟨mm.mutexes.length, mutexUnlockedLabel mm.mutexes.length,
      mutexLockedLabel mm.mutexes.length⟩], mm.lockCounter + 1⟩,
    ⟨net.places ++ [mutexUnlockedLabel mm.mutexes.length, mutexLockedLabel mm.mutexes.length],
      net.transitions,
      net.arcsPT ++ [(mutexUnlockedLabel mm.mutexes.length, transitionLock)],
      net.arcsTP, net.marking⟩,
    memory.linkPlaceToMutex p mm.mutexes.length, ?_, ?_⟩
  · simp [mutexNewThenLock, MutexManager.addMutex, Mutex.newInNet, PetriNet.addPlace,
      Memory.getLinkedMutex, Memory.linkPlaceToMutex, alGet_alInsert_self,
      MutexManager.addLockGuard, get_concat_length, Mutex.addLockGuard,
      PetriNet.addArcPlaceTransition, hu, hl, ht, Ne.symm hne]
  · simp

/-- C4 witness: the lock-input theorem applied to a fresh manager, an empty
memory and a net owning only the lock transition. -/
theorem mutex_lock_consumes_unlocked_place_witness :
    ∃ mm2 net2 memory1,
      mutexNewThenLock MutexManager.new ⟨[], ["LOCK_T"], [], [], []⟩ Memory.new
          ⟨5, []⟩ ⟨5, []⟩ "LOCK_T" = some (mm2, net2, memory1) ∧
      (mutexUnlockedLabel MutexManager.new.mutexes.length, "LOCK_T") ∈ net2.arcsPT :=
  mutex_lock_consumes_unlocked_place MutexManager.new ⟨[], ["LOCK_T"], [], [], []⟩
    Memory.new ⟨5, []⟩ "LOCK_T" (by decide) (by decide) (by decide)

/-- C5 counterexample: the claim states that two runs on the same input
produce identical nets, in particular the same assignment of captured mutex
handles to a spawned thread's memory.  The capture resolution iterates a Rust
`HashMap`, whose iteration order is unspecified and varies between runs; the
embedding makes that order the entry-list order.  Two memories that are equal
as finite maps (the entry lists are permutations of each other) yield
different capture lists for the same spawn argument, and feeding those lists
to `move_mutexes` assigns the two mutex handles to the thread's places in
opposite ways. -/
theorem capture_assignment_depends_on_iteration_order :
    (Memory.mk [(⟨1, [0]⟩, 0), (⟨1, [1]⟩, 1)] [] []).placesLinkedToMutexes.Perm
      (Memory.mk [(⟨1, [1]⟩, 1), (⟨1, [0]⟩, 0)] [] []).placesLinkedToMutexes ∧
    (Memory.mk [(⟨1, [0]⟩, 0), (⟨1, [1]⟩, 1)] [] []).findMutexesLinkedToPlace ⟨1, []⟩ ≠
      (Memory.mk [(⟨1, [1]⟩, 1), (⟨1, [0]⟩, 0)] [] []).findMutexesLinkedToPlace ⟨1, []⟩ ∧
    moveMutexesLoop [(⟨1, [0]⟩, true), (⟨1, [1]⟩, true)]
        ((Memory.mk [(⟨1, [0]⟩, 0), (⟨1, [1]⟩, 1)] [] []).findMutexesLinkedToPlace ⟨1, []⟩)
        Memory.new ≠
      moveMutexesLoop [(⟨1, [0]⟩, true), (⟨1, [1]⟩, true)]
        ((Memory.mk [(⟨1, [1]⟩, 1), (⟨1, [0]⟩, 0)] [] []).findMutexesLinkedToPlace ⟨1, []⟩)
        Memory.new :=
  ⟨List.Perm.swap _ _ _, by decide, by decide⟩

/-- C5 (amended): the translator is deterministic up to the unspecified
iteration order of the handle-memory map: for two runs whose memories are
equal as finite maps, the captured mutex handles form the same multiset (a
permutation), though their order — and hence the assignment of the handles to
the spawned thread's places — may differ. -/
theorem find_mutexes_permutation_invariant (m1 m2 : Memory) (p : MirPlace)
    (h : m1.placesLinkedToMutexes.Perm m2.placesLinkedToMutexes) :
    (m1.findMutexesLinkedToPlace p).Perm (m2.findMutexesLinkedToPlace p) :=
  h.filterMap _

/-- C5 witness: the permutation invariant applied to the two enumeration
orders of the two-mutex memory. -/
theorem find_mutexes_permutation_invariant_witness :
    ((Memory.mk [(⟨1, [0]⟩, 0), (⟨1, [1]⟩, 1)] [] []).findMutexesLinkedToPlace ⟨1, []⟩).Perm
      ((Memory.mk [(⟨1, [1]⟩, 1), (⟨1, [0]⟩, 0)] [] []).findMutexesLinkedToPlace ⟨1, []⟩) :=
  find_mutexes_permutation_invariant (Memory.mk [(⟨1, [0]⟩, 0), (⟨1, [1]⟩, 1)] [] [])
    (Memory.mk [(⟨1, [1]⟩, 1), (⟨1, [0]⟩, 0)] [] []) ⟨1, []⟩ (List.Perm.swap _ _ _)

/-- C6: after `Translator::new` and before any translation step, the net
contains exactly the three program places (panic, end, start — in insertion
order), the program-start place holds exactly one token, and no other place
of the net holds any token. -/
theorem translator_new_initial_marking :
    translatorNewNet.map PetriNet.places = some [PROGRAM_PANIC, PROGRAM_END, PROGRAM_START] ∧
    translatorNewNet.map (fun n => n.tokens PROGRAM_START) = some 1 ∧
    translatorNewNet.map
      (fun n => n.places.all (fun p => p == PROGRAM_START || n.tokens p == 0)) = some true := by
  decide

/-- C7: starting from a freshly constructed translator (no error recorded),
`run` records a recoverable error exactly when no program entry point
resolves; in that case `get_result` returns that error (no net is handed
out), and when an entry point exists `get_result` returns the translated net.
The statement quantifies over every possible behavior `translate` of the
translation proper, which never assigns the error slot in the source. -/
theorem run_recoverable_error_iff_no_entry_point (s : TranslatorState)
    (entryFn : Option Nat) (translate : Nat → PetriNet → PetriNet)
    (hs : s.errStr = none) :
    ((s.run entryFn translate).errStr ≠ none ↔ entryFn = none) ∧
    (entryFn = none →
      ((s.run entryFn translate).getResult).1 = Except.error ERR_NO_MAIN_FUNCTION_FOUND) ∧
    (∀ mainId, entryFn = some mainId →
      ((s.run entryFn translate).getResult).1 = Except.ok (translate mainId s.net)) := by
  cases entryFn with
  | none => simp [TranslatorState.run, TranslatorState.getResult]
  | some mainId => simp [TranslatorState.run, TranslatorState.getResult, hs]

/-- C7 witness: the error-reporting theorem applied to a fresh state with a
resolvable entry point and the identity translation. -/
theorem run_recoverable_error_iff_no_entry_point_witness :
    ((TranslatorState.run ⟨none, PetriNet.empty⟩ (some 42) (fun _ n => n)).errStr ≠ none ↔
      (some 42 : Option Nat) = none) ∧
    ((some 42 : Option Nat) = none →
      ((TranslatorState.run ⟨none, PetriNet.empty⟩ (some 42) (fun _ n => n)).getResult).1 =
        Except.error ERR_NO_MAIN_FUNCTION_FOUND) ∧
    (∀ mainId, (some 42 : Option Nat) = some mainId →
      ((TranslatorState.run ⟨none, PetriNet.empty⟩ (some 42) (fun _ n => n)).getResult).1 =
        Except.ok ((fun _ n => n) mainId (⟨none, PetriNet.empty⟩ : TranslatorState).net)) :=
  run_recoverable_error_iff_no_entry_point ⟨none, PetriNet.empty⟩ (some 42)
    (fun _ n => n) rfl

/-- C8: the link operation always succeeds (it is a total function of the
embedding, matching the source, which never panics on an existing entry):
afterwards the place maps to the newly given handle, other places keep their
handles, and overwriting with the identical handle leaves the memory
entirely unchanged.  Stated for the mutex map and the join-handle map, the
two kinds the claim's sources name. -/
theorem link_place_overwrites_and_never_panics (m : Memory) (p q : MirPlace)
    (h1 : MutexRef) (t : ThreadRef) (hq : q ≠ p) :
    (m.linkPlaceToMutex p h1).getLinkedMutex p = some h1 ∧
    (m.linkPlaceToMutex p h1).getLinkedMutex q = m.getLinkedMutex q ∧
    (m.getLinkedMutex p = some h1 → m.linkPlaceToMutex p h1 = m) ∧
    (m.linkPlaceToJoinHandle p t).getLinkedJoinHandle p = some t ∧
    (m.linkPlaceToJoinHandle p t).getLinkedJoinHandle q = m.getLinkedJoinHandle q := by
  refine ⟨alGet_alInsert_self _ _ _, alGet_alInsert_ne _ _ _ _ hq, ?_,
    alGet_alInsert_self _ _ _, alGet_alInsert_ne _ _ _ _ hq⟩
  intro h
  have h2 := alInsert_same m.placesLinkedToMutexes p h1 h
  simp [Memory.linkPlaceToMutex, h2]

/-- C8 witness: the link theorem applied to the empty memory and two distinct
places. -/
theorem link_place_overwrites_and_never_panics_witness :
    ((Memory.new.linkPlaceToMutex ⟨1, []⟩ 0).getLinkedMutex ⟨1, []⟩ = some 0 ∧
    (Memory.new.linkPlaceToMutex ⟨1, []⟩ 0).getLinkedMutex ⟨2, []⟩ =
      Memory.new.getLinkedMutex ⟨2, []⟩ ∧
    (Memory.new.getLinkedMutex ⟨1, []⟩ = some 0 →
      Memory.new.linkPlaceToMutex ⟨1, []⟩ 0 = Memory.new) ∧
    (Memory.new.linkPlaceToJoinHandle ⟨1, []⟩ 5).getLinkedJoinHandle ⟨1, []⟩ = some 5 ∧
    (Memory.new.linkPlaceToJoinHandle ⟨1, []⟩ 5).getLinkedJoinHandle ⟨2, []⟩ =
      Memory.new.getLinkedJoinHandle ⟨2, []⟩) :=
  link_place_overwrites_and_never_panics Memory.new ⟨1, []⟩ ⟨2, []⟩ 0 5 (by decide)

/-- C9: the get operation is fatal (returns `none`, embedding the panic)
exactly when the queried place is not a key of the map for the queried handle
kind, and after a link for a place the get on that place returns the handle
that this most recent link stored.  Stated for the mutex map and the
join-handle map, the two kinds the claim's sources name. -/
theorem get_linked_fatal_iff_unlinked (m : Memory) (p : MirPlace)
    (h : MutexRef) (t : ThreadRef) :
    (m.getLinkedMutex p = none ↔ p ∉ m.mutexKeys) ∧
    ((m.linkPlaceToMutex p h).getLinkedMutex p = some h) ∧
    (m.getLinkedJoinHandle p = none ↔ p ∉ m.joinHandleKeys) ∧
    ((m.linkPlaceToJoinHandle p t).getLinkedJoinHandle p = some t) :=
  ⟨alGet_eq_none_iff _ _, alGet_alInsert_self _ _ _,
    alGet_eq_none_iff _ _, alGet_alInsert_self _ _ _⟩

/-- C10: on a successfully translated state, the first `get_result` returns
the translated net and moves it out of the translator (`std::mem::take`); a
second `get_result` still returns `Ok`, but carrying the fresh empty default
net, which has no places and no transitions. -/
theorem get_result_transfers_ownership_once (s : TranslatorState)
    (hs : s.errStr = none) :
    (s.getResult).1 = Except.ok s.net ∧
    ((s.getResult).2.getResult).1 = Except.ok PetriNet.empty ∧
    PetriNet.empty.places = [] ∧ PetriNet.empty.transitions = [] := by
  simp [TranslatorState.getResult, hs, PetriNet.empty]

/-- C10 witness: the ownership-transfer theorem applied to a state holding a
one-place net. -/
theorem get_result_transfers_ownership_once_witness :
    (TranslatorState.getResult ⟨none, ⟨["A"], [], [], [], []⟩⟩).1 =
      Except.ok (⟨none, ⟨["A"], [], [], [], []⟩⟩ : TranslatorState).net ∧
    ((TranslatorState.getResult ⟨none, ⟨["A"], [], [], [], []⟩⟩).2.getResult).1 =
      Except.ok PetriNet.empty ∧
    PetriNet.empty.places = [] ∧ PetriNet.empty.transitions = [] :=
  get_result_transfers_ownership_once ⟨none, ⟨["A"], [], [], [], []⟩⟩ rfl

end Granite
